import Mathlib

/-!
# Verification of hootrhino/sqlparser

Shallow embedding of the SQL-dialect parser (`sql.go`, package `sqlparser`),
the query model (package `query`), and both condition evaluators
(iterative `Filter`/`checkCondition` and recursive
`FilterRecursive`/`evaluateConditionsRecursive`), together with theorems
settling the specification claims.

Strings are handled as `List Char`; Go indexes bytes, but all behaviour
relevant here concerns ASCII inputs, on which byte positions and
character positions coincide and Go's byte-wise lexicographic string
order equals the code-point order used below.
-/

namespace SqlParser

/-! ## Basic character and list helpers -/

/-- ASCII upper-casing of a character, as `strings.ToUpper` acts on ASCII. -/
def listToUpper (cs : List Char) : List Char := cs.map Char.toUpper

/-- Go `unicode.IsSpace` restricted to ASCII, as used by `strings.TrimSpace`. -/
def isGoSpace (c : Char) : Bool :=
  c = ' ' || c = '\t' || c = '\n' || c = Char.ofNat 11 || c = Char.ofNat 12 || c = '\r'

/-- `strings.TrimSpace` on the character list. -/
def goTrimSpace (cs : List Char) : List Char :=
  ((cs.dropWhile isGoSpace).reverse.dropWhile isGoSpace).reverse

/-- Go map indexing `m[k]` for a map modelled as an association list;
keys are unique, lookup returns the first match. -/
def lookupAssoc {α : Type} (m : List (String × α)) (k : String) : Option α :=
  match m with
  | [] => none
  | (k', v) :: rest => if k' = k then some v else lookupAssoc rest k

/-- Go map assignment `m[k] = v`: overwrite an existing key in place,
otherwise append.  (Go map iteration order is unspecified; the embedding
fixes insertion order, the deterministic choice §9 of the spec requires.) -/
def assocInsert {α : Type} (m : List (String × α)) (k : String) (v : α) :
    List (String × α) :=
  match m with
  | [] => [(k, v)]
  | (k', v') :: rest =>
      if k' = k then (k, v) :: rest else (k', v') :: assocInsert rest k v

/-- Mutation of the last element of a slice, `xs[len(xs)-1] = f xs[len(xs)-1]`.
On an empty list this is a no-op (the Go code never reaches that case). -/
def updateLast {α : Type} (f : α → α) : List α → List α
  | [] => []
  | [x] => [f x]
  | x :: y :: rest => x :: updateLast f (y :: rest)

/-- `strings.Split(s, ".")` on character lists: split at every dot,
preserving empty segments; the empty string yields one empty segment. -/
def splitDot (cs : List Char) : List (List Char) :=
  match cs with
  | [] => [[]]
  | c :: rest =>
      match splitDot rest with
      | [] => if c = '.' then [[], []] else [[c]]
      | seg :: segs => if c = '.' then [] :: seg :: segs else (c :: seg) :: segs

/-- `strings.Split(s, ".")` at the `String` level. -/
def goSplitDot (s : String) : List String := (splitDot s.data).map List.asString

/-! ## Decimal rendering and parsing

`fmt.Sprintf("%v", n)` for integers and `strconv.ParseFloat(s, 64)` are
standard-library routines; they are modelled here restricted to plain
decimal forms (optional sign, digits, at most one decimal point), with
exact rational arithmetic in place of 64-bit floating point.  Exponent,
hexadecimal, `Inf`/`NaN` and underscore forms are outside the modelled
input domain. -/

/-- The character of a single decimal digit. -/
def digitChar (n : Nat) : Char := Char.ofNat (48 + n)

/-- Decimal digits of `n`, most significant first; `fuel` bounds recursion
(`fuel > n` suffices since `n / 10 < n` for `n ≥ 10`). -/
def natDigits : Nat → Nat → List Char
  | 0, _ => []
  | fuel + 1, n =>
      if n < 10 then [digitChar n]
      else natDigits fuel (n / 10) ++ [digitChar (n % 10)]

/-- `fmt.Sprintf("%v", n)` for an integer value, as a character list. -/
def intRenderL : Int → List Char
  | Int.ofNat n => natDigits (n + 1) n
  | Int.negSucc m => '-' :: natDigits (m + 2) (m + 1)

/-- Numeric value of a digit list (most significant first). -/
def digitsVal (cs : List Char) : Nat :=
  cs.foldl (fun a c => 10 * a + (c.toNat - 48)) 0

/-- Unsigned part of `strconv.ParseFloat`: digits with an optional single
decimal point, at least one digit in total. -/
def parseFloatUnsigned (cs : List Char) : Option ℚ :=
  let ip := cs.takeWhile Char.isDigit
  let rest := cs.dropWhile Char.isDigit
  match rest with
  | [] => if ip.isEmpty then none else some (digitsVal ip : ℚ)
  | '.' :: fp =>
      if fp.all Char.isDigit && !(ip.isEmpty && fp.isEmpty) then
        some ((digitsVal ip : ℚ) + (digitsVal fp : ℚ) / (10 ^ fp.length : ℚ))
      else none
  | _ => none

/-- `strconv.ParseFloat(s, 64)` on a character list (decimal forms only). -/
def parseFloatL (cs : List Char) : Option ℚ :=
  match cs with
  | [] => none
  | '+' :: t => parseFloatUnsigned t
  | '-' :: t => (parseFloatUnsigned t).map (fun q => -q)
  | _ => parseFloatUnsigned cs

/-- `strconv.ParseFloat(s, 64)` at the `String` level. -/
def parseFloat (s : String) : Option ℚ := parseFloatL s.data

/-! ## Record values

A record is `map[string]any`.  The embedding's value domain covers the
dynamic types the evaluators distinguish: strings, (signed) integers,
booleans and nested string-keyed maps.  (The code's `float32`/`float64`
cases have no counterpart in this domain.) -/

/-- A dynamically typed record value (`any`). -/
inductive Value : Type where
  | vStr : String → Value
  | vInt : Int → Value
  | vBool : Bool → Value
  | vMap : List (String × Value) → Value
  deriving Repr, BEq

/-- A record: `map[string]any`. -/
abbrev Row := List (String × Value)

mutual
/-- `fmt.Sprintf("%v", value)` as a character list.  Maps print as
`map[k1:v1 k2:v2]`; the embedding renders entries in stored order and
treats association lists as already key-sorted where that order matters
(Go's `fmt` sorts map keys). -/
def renderValueL : Value → List Char
  | .vStr s => s.data
  | .vInt n => intRenderL n
  | .vBool b => if b then "true".data else "false".data
  | .vMap m => "map[".data ++ renderEntriesL m ++ [']']

/-- Rendering of the entries of a map value. -/
def renderEntriesL : List (String × Value) → List Char
  | [] => []
  | [(k, v)] => k.data ++ [':'] ++ renderValueL v
  | (k, v) :: rest => k.data ++ [':'] ++ renderValueL v ++ [' '] ++ renderEntriesL rest
end

/-- `fmt.Sprintf("%v", value)` at the `String` level. -/
def renderValue (v : Value) : String := (renderValueL v).asString

/-! ## Query model (package `query`, `src/unnamed/part_000`) -/

/-- `query.Type`: the kind of SQL statement. -/
inductive QType : Type where
  | unknownType | select | update | insert | delete | create
  deriving Repr, DecidableEq

/-- `query.Operator`: the operator of a WHERE condition. -/
inductive Operator : Type where
  | unknownOperator | eq | ne | gt | lt | gte | lte | like | notLike | inOp | notIn
  deriving Repr, DecidableEq

/-- `query.Condition`: one boolean condition of a WHERE clause. -/
structure Condition : Type where
  operand1 : String
  operand1IsField : Bool
  operator : Operator
  operand2 : String
  operand2IsField : Bool
  inValues : List String
  deriving Repr, DecidableEq

/-- `query.Query`: the parsed statement.  Go's maps (`Updates`, `Aliases`,
`CreateFields`) are modelled as association lists in insertion order. -/
structure Query : Type where
  type : QType
  tableName : String
  conditions : List Condition
  updates : List (String × String)
  inserts : List (List String)
  fields : List String
  aliases : List (String × String)
  createFields : List (String × String)
  deriving Repr, DecidableEq

/-- The zero value `query.Query{}`. -/
def emptyQuery : Query := ⟨.unknownType, "", [], [], [], [], [], []⟩

/-- `Operator.String()` from the query package. -/
def operatorGoString : Operator → String
  | .eq => "="
  | .ne => "!="
  | .gt => ">"
  | .lt => "<"
  | .gte => ">="
  | .lte => "<="
  | .like => "LIKE"
  | .notLike => "NOT LIKE"
  | .inOp => "IN"
  | .notIn => "NOT IN"
  | .unknownOperator => "UnknownOperator"

/-! ## Tokenizer (`peek*` functions of `sql.go`) -/

/-- The ordered reserved-word table; order encodes precedence. -/
def reservedWords : List (List Char) :=
  ["(", ")", ">=", "<=", "!=", ",", "=", ">", "<", "SELECT", "INSERT INTO",
   "VALUES", "UPDATE", "DELETE FROM", "WHERE", "FROM", "SET", "AS",
   "CREATE TABLE", "LIKE", "NOT LIKE", "IN", "NOT IN"].map String.data

/-- First reserved word whose upper-cased, length-matched prefix of the
remaining input equals the word; returns the (upper-cased) token and its
length, as in `peekWithLength`'s reserved-word loop. -/
def tryReserved (ws : List (List Char)) (rest : List Char) :
    Option (List Char × Nat) :=
  match ws with
  | [] => none
  | w :: ws' =>
      let token := listToUpper (rest.take w.length)
      if token = w then some (token, token.length) else tryReserved ws' rest

/-- Scan for the closing quote of a quoted literal: the first `'` whose
predecessor is not `\`.  Arguments: remaining input, previous character,
reversed content accumulator.  Returns the content and the token length
(content plus the two quotes), as in `peekQuotedStringWithLength`. -/
def scanQuoted : List Char → Char → List Char → Option (List Char × Nat)
  | [], _, _ => none
  | c :: t, prev, acc =>
      if c = '\'' && prev ≠ '\\' then some (acc.reverse, acc.length + 2)
      else scanQuoted t c (c :: acc)

/-- `peekQuotedStringWithLength`: lex a quoted literal at the cursor. -/
def peekQuotedStringWithLength (rest : List Char) : List Char × Nat :=
  match rest with
  | '\'' :: t => (scanQuoted t '\'' []).getD ([], 0)
  | _ => ([], 0)

/-- An identifier character: ASCII letter, digit, `_`, `*` or `.`. -/
def isIdentChar (c : Char) : Bool :=
  (('a' ≤ c && c ≤ 'z') || ('A' ≤ c && c ≤ 'Z') || ('0' ≤ c && c ≤ '9')
    || c = '_' || c = '*' || c = '.')

/-- `peekIdentifierWithLength`: maximal run of identifier characters. -/
def peekIdentifierWithLength (rest : List Char) : List Char × Nat :=
  let tok := rest.takeWhile isIdentChar
  (tok, tok.length)

/-- `peekWithLength`: reserved word first, then quoted literal, then
identifier; end of input yields the empty token of length 0. -/
def peekWithLength (rest : List Char) : List Char × Nat :=
  match rest with
  | [] => ([], 0)
  | c :: _ =>
      match tryReserved reservedWords rest with
      | some r => r
      | none =>
          if c = '\'' then peekQuotedStringWithLength rest
          else peekIdentifierWithLength rest

/-- `popWhitespace`: skip a run of space characters (only `' '`). -/
def dropSpaces (rest : List Char) : List Char := rest.dropWhile (· = ' ')

/-- `pop` applied after a peek of length `n`: advance and skip spaces. -/
def popN (rest : List Char) (n : Nat) : List Char := dropSpaces (rest.drop n)

/-- `isIdentifier`: not a reserved word (after upper-casing), and
`regexp.MatchString("[a-zA-Z_][a-zA-Z_0-9]*", s)`.  The pattern is
unanchored, so it succeeds exactly when the string contains at least one
ASCII letter or underscore. -/
def isIdentifier (s : List Char) : Bool :=
  if reservedWords.any (fun w => listToUpper s = w) then false
  else s.any (fun c => c.isAlpha || c = '_')

/-- `isIdentifierOrAsterisk`. -/
def isIdentifierOrAsterisk (s : List Char) : Bool :=
  isIdentifier s || s = ['*']

/-! ## Parser state machine (`doParse` of `sql.go`) -/

/-- The parser steps, one per grammar position. -/
inductive Step : Type where
  | stepType
  | stepSelectField
  | stepSelectFrom
  | stepSelectComma
  | stepSelectFromTable
  | stepInsertTable
  | stepInsertFieldsOpeningParens
  | stepInsertFields
  | stepInsertFieldsCommaOrClosingParens
  | stepInsertValuesOpeningParens
  | stepInsertValuesRWord
  | stepInsertValues
  | stepInsertValuesCommaOrClosingParens
  | stepInsertValuesCommaBeforeOpeningParens
  | stepUpdateTable
  | stepUpdateSet
  | stepUpdateField
  | stepUpdateEquals
  | stepUpdateValue
  | stepUpdateComma
  | stepDeleteFromTable
  | stepWhere
  | stepWhereField
  | stepWhereOperator
  | stepWhereValue
  | stepWhereAnd
  | stepCreateTable
  | stepParseCreateFields
  | stepWhereInOpeningParens
  | stepWhereInValue
  | stepWhereInCommaOrClosingParens
  deriving Repr, DecidableEq

/-- The mutable parser value: unconsumed input (the suffix from cursor
`i`), current step, query under construction, and the pending UPDATE
field name. -/
structure PState : Type where
  rest : List Char
  step : Step
  query : Query
  nextUpdateField : String
  deriving Repr, DecidableEq

/-- Operator of the condition currently being completed
(`p.query.Conditions[len-1].Operator`); the Go code never reads it from
an empty slice. -/
def lastOperator (conds : List Condition) : Operator :=
  ((conds.getLast?).map (·.operator)).getD .unknownOperator

/-- One fresh condition as appended at `stepWhereField`. -/
def newCondition (operand1 : String) : Condition :=
  ⟨operand1, true, .unknownOperator, "", false, []⟩

/-- The `doParse` loop.  `fuel` bounds the iteration count; every
non-returning iteration consumes at least one input character, so
`length + 2` fuel always suffices and the fuel-exhaustion error is
unreachable from `parseQ`. -/
def doParse : Nat → PState → PState × Option String
  | 0, st => (st, some "parser fuel exhausted")
  | fuel + 1, st =>
    if st.rest.isEmpty then (st, none)
    else
      match st.step with
      | .stepType =>
          let (tok, ln) := peekWithLength st.rest
          let qType := listToUpper tok
          if qType = "SELECT".data then
            doParse fuel ⟨popN st.rest ln, .stepSelectField,
              { st.query with type := .select }, st.nextUpdateField⟩
          else if qType = "INSERT INTO".data then
            doParse fuel ⟨popN st.rest ln, .stepInsertTable,
              { st.query with type := .insert }, st.nextUpdateField⟩
          else if qType = "UPDATE".data then
            doParse fuel ⟨popN st.rest ln, .stepUpdateTable,
              { st.query with type := .update, updates := [] }, st.nextUpdateField⟩
          else if qType = "DELETE FROM".data then
            doParse fuel ⟨popN st.rest ln, .stepDeleteFromTable,
              { st.query with type := .delete }, st.nextUpdateField⟩
          else if qType = "CREATE TABLE".data then
            doParse fuel ⟨popN st.rest ln, .stepCreateTable,
              { st.query with type := .create, createFields := [] }, st.nextUpdateField⟩
          else (st, some "invalid query type")
      | .stepCreateTable =>
          let (tableName, ln) := peekWithLength st.rest
          if tableName.isEmpty then (st, some "missing table name")
          else
            let q1 := { st.query with tableName := tableName.asString }
            let r1 := popN st.rest ln
            let (lb, ln2) := peekWithLength r1
            if lb ≠ "(".data then
              (⟨r1, st.step, q1, st.nextUpdateField⟩, some "syntax error, expect '(")
            else
              doParse fuel ⟨popN r1 ln2, .stepParseCreateFields, q1, st.nextUpdateField⟩
      | .stepParseCreateFields =>
          let (field, ln) := peekWithLength st.rest
          if field.isEmpty then (st, some "syntax error, expect filed name")
          else
            let r1 := popN st.rest ln
            let (ty, ln2) := peekWithLength r1
            if ty.isEmpty then (st, some "syntax error, expect filed type")
            else
              let r2 := popN r1 ln2
              let q1 := { st.query with
                createFields := assocInsert st.query.createFields field.asString ty.asString }
              let (ntok, ln3) := peekWithLength r2
              if ntok = ",".data then
                doParse fuel ⟨popN r2 ln3, .stepParseCreateFields, q1, st.nextUpdateField⟩
              else if ntok = ")".data then
                doParse fuel ⟨popN r2 ln3, .stepParseCreateFields, q1, st.nextUpdateField⟩
              else (st, some "syntax error, expect ')'")
      | .stepSelectField =>
          let (identifier, ln) := peekWithLength st.rest
          if !isIdentifierOrAsterisk identifier then
            (st, some "at SELECT: expected field to SELECT")
          else
            let q1 := { st.query with fields := st.query.fields ++ [identifier.asString] }
            let r1 := popN st.rest ln
            let (maybeFrom, lnAs) := peekWithLength r1
            if listToUpper maybeFrom = "AS".data then
              let r2 := popN r1 lnAs
              let (aliasTok, ln3) := peekWithLength r2
              if !isIdentifier aliasTok then
                (⟨r2, st.step, q1, st.nextUpdateField⟩,
                 some ("at SELECT: expected field alias for \"" ++ identifier.asString
                   ++ " as\" to SELECT"))
              else
                let q2 := { q1 with
                  aliases := assocInsert q1.aliases identifier.asString aliasTok.asString }
                let r3 := popN r2 ln3
                let (maybeFrom2, _) := peekWithLength r3
                if listToUpper maybeFrom2 = "FROM".data then
                  doParse fuel ⟨r3, .stepSelectFrom, q2, st.nextUpdateField⟩
                else
                  doParse fuel ⟨r3, .stepSelectComma, q2, st.nextUpdateField⟩
            else if listToUpper maybeFrom = "FROM".data then
              doParse fuel ⟨r1, .stepSelectFrom, q1, st.nextUpdateField⟩
            else
              doParse fuel ⟨r1, .stepSelectComma, q1, st.nextUpdateField⟩
      | .stepSelectComma =>
          let (tok, ln) := peekWithLength st.rest
          if tok ≠ ",".data then (st, some "at SELECT: expected comma or FROM")
          else doParse fuel ⟨popN st.rest ln, .stepSelectField, st.query, st.nextUpdateField⟩
      | .stepSelectFrom =>
          let (tok, ln) := peekWithLength st.rest
          if listToUpper tok ≠ "FROM".data then (st, some "at SELECT: expected FROM")
          else doParse fuel ⟨popN st.rest ln, .stepSelectFromTable, st.query, st.nextUpdateField⟩
      | .stepSelectFromTable =>
          let (tableName, ln) := peekWithLength st.rest
          if tableName.isEmpty then (st, some "at SELECT: expected quoted table name")
          else
            doParse fuel ⟨popN st.rest ln, .stepWhere,
              { st.query with tableName := tableName.asString }, st.nextUpdateField⟩
      | .stepInsertTable =>
          let (tableName, ln) := peekWithLength st.rest
          if tableName.isEmpty then (st, some "at INSERT INTO: expected quoted table name")
          else
            doParse fuel ⟨popN st.rest ln, .stepInsertFieldsOpeningParens,
              { st.query with tableName := tableName.asString }, st.nextUpdateField⟩
      | .stepDeleteFromTable =>
          let (tableName, ln) := peekWithLength st.rest
          if tableName.isEmpty then (st, some "at DELETE FROM: expected quoted table name")
          else
            doParse fuel ⟨popN st.rest ln, .stepWhere,
              { st.query with tableName := tableName.asString }, st.nextUpdateField⟩
      | .stepUpdateTable =>
          let (tableName, ln) := peekWithLength st.rest
          if tableName.isEmpty then (st, some "at UPDATE: expected quoted table name")
          else
            doParse fuel ⟨popN st.rest ln, .stepUpdateSet,
              { st.query with tableName := tableName.asString }, st.nextUpdateField⟩
      | .stepUpdateSet =>
          let (tok, ln) := peekWithLength st.rest
          if tok ≠ "SET".data then (st, some "at UPDATE: expected 'SET'")
          else doParse fuel ⟨popN st.rest ln, .stepUpdateField, st.query, st.nextUpdateField⟩
      | .stepUpdateField =>
          let (identifier, ln) := peekWithLength st.rest
          if !isIdentifier identifier then
            (st, some "at UPDATE: expected at least one field to update")
          else
            doParse fuel ⟨popN st.rest ln, .stepUpdateEquals, st.query, identifier.asString⟩
      | .stepUpdateEquals =>
          let (tok, ln) := peekWithLength st.rest
          if tok ≠ "=".data then (st, some "at UPDATE: expected '='")
          else doParse fuel ⟨popN st.rest ln, .stepUpdateValue, st.query, st.nextUpdateField⟩
      | .stepUpdateValue =>
          let (qv, ln) := peekQuotedStringWithLength st.rest
          if ln = 0 then (st, some "at UPDATE: expected quoted value")
          else
            let q1 := { st.query with
              updates := assocInsert st.query.updates st.nextUpdateField qv.asString }
            let r1 := popN st.rest ln
            let (maybeWhere, _) := peekWithLength r1
            if listToUpper maybeWhere = "WHERE".data then
              doParse fuel ⟨r1, .stepWhere, q1, ""⟩
            else
              doParse fuel ⟨r1, .stepUpdateComma, q1, ""⟩
      | .stepUpdateComma =>
          let (tok, ln) := peekWithLength st.rest
          if tok ≠ ",".data then (st, some "at UPDATE: expected ','")
          else doParse fuel ⟨popN st.rest ln, .stepUpdateField, st.query, st.nextUpdateField⟩
      | .stepWhere =>
          let (tok, ln) := peekWithLength st.rest
          if listToUpper tok ≠ "WHERE".data then (st, some "expected WHERE")
          else doParse fuel ⟨popN st.rest ln, .stepWhereField, st.query, st.nextUpdateField⟩
      | .stepWhereField =>
          let (identifier, ln) := peekWithLength st.rest
          if !isIdentifier identifier then (st, some "at WHERE: expected field")
          else
            doParse fuel ⟨popN st.rest ln, .stepWhereOperator,
              { st.query with
                conditions := st.query.conditions ++ [newCondition identifier.asString] },
              st.nextUpdateField⟩
      | .stepWhereOperator =>
          let (op, ln) := peekWithLength st.rest
          let opv : Option Operator :=
            if op = "=".data then some .eq
            else if op = ">".data then some .gt
            else if op = ">=".data then some .gte
            else if op = "<".data then some .lt
            else if op = "<=".data then some .lte
            else if op = "!=".data then some .ne
            else if op = "LIKE".data then some .like
            else if op = "NOT LIKE".data then some .notLike
            else if op = "IN".data then some .inOp
            else if op = "NOT IN".data then some .notIn
            else none
          match opv with
          | none => (st, some "at WHERE: unknown operator")
          | some o =>
              let q1 := { st.query with
                conditions := updateLast (fun c => { c with operator := o }) st.query.conditions }
              let r1 := popN st.rest ln
              if o = .inOp || o = .notIn then
                doParse fuel ⟨r1, .stepWhereInOpeningParens, q1, st.nextUpdateField⟩
              else
                doParse fuel ⟨r1, .stepWhereValue, q1, st.nextUpdateField⟩
      | .stepWhereInOpeningParens =>
          let (tok, ln) := peekWithLength st.rest
          if tok ≠ "(".data then (st, some "at WHERE IN: expected opening parenthesis")
          else doParse fuel ⟨popN st.rest ln, .stepWhereInValue, st.query, st.nextUpdateField⟩
      | .stepWhereInValue =>
          let (qv, ln) := peekQuotedStringWithLength st.rest
          if ln = 0 then (st, some "at WHERE IN: expected quoted value")
          else
            let q1 := { st.query with
              conditions := updateLast
                (fun c => { c with inValues := c.inValues ++ [qv.asString] })
                st.query.conditions }
            doParse fuel ⟨popN st.rest ln, .stepWhereInCommaOrClosingParens, q1,
              st.nextUpdateField⟩
      | .stepWhereInCommaOrClosingParens =>
          let (tok, ln) := peekWithLength st.rest
          if tok.isEmpty then (st, some "at WHERE IN: expected closing parenthesis")
          else
            let r1 := popN st.rest ln
            if tok = ",".data then
              doParse fuel ⟨r1, .stepWhereInValue, st.query, st.nextUpdateField⟩
            else if tok = ")".data then
              doParse fuel ⟨r1, .stepWhereAnd, st.query, st.nextUpdateField⟩
            else
              (⟨r1, st.step, st.query, st.nextUpdateField⟩,
               some "at WHERE IN: expected comma or closing parenthesis")
      | .stepWhereValue =>
          let curOp := lastOperator st.query.conditions
          if curOp = .like || curOp = .notLike then
            let (qv, ln) := peekQuotedStringWithLength st.rest
            if ln = 0 then (st, some "at WHERE: expected quoted value for LIKE/NOT LIKE")
            else
              let q1 := { st.query with
                conditions := updateLast
                  (fun c => { c with operand2 := qv.asString, operand2IsField := false })
                  st.query.conditions }
              doParse fuel ⟨popN st.rest ln, .stepWhereAnd, q1, st.nextUpdateField⟩
          else
            let (identifier, ln) := peekWithLength st.rest
            if isIdentifier identifier then
              let q1 := { st.query with
                conditions := updateLast
                  (fun c => { c with operand2 := identifier.asString, operand2IsField := true })
                  st.query.conditions }
              doParse fuel ⟨popN st.rest ln, .stepWhereAnd, q1, st.nextUpdateField⟩
            else
              let (qv, lnq) := peekQuotedStringWithLength st.rest
              if lnq = 0 then (st, some "at WHERE: expected quoted value")
              else
                let q1 := { st.query with
                  conditions := updateLast
                    (fun c => { c with operand2 := qv.asString, operand2IsField := false })
                    st.query.conditions }
                doParse fuel ⟨popN st.rest lnq, .stepWhereAnd, q1, st.nextUpdateField⟩
      | .stepWhereAnd =>
          let (tok, ln) := peekWithLength st.rest
          if listToUpper tok ≠ "AND".data then (st, some "expected AND")
          else doParse fuel ⟨popN st.rest ln, .stepWhereField, st.query, st.nextUpdateField⟩
      | .stepInsertFieldsOpeningParens =>
          let (tok, ln) := peekWithLength st.rest
          if tok ≠ "(".data then (st, some "at INSERT INTO: expected opening parens")
          else doParse fuel ⟨popN st.rest ln, .stepInsertFields, st.query, st.nextUpdateField⟩
      | .stepInsertFields =>
          let (identifier, ln) := peekWithLength st.rest
          if !isIdentifier identifier then
            (st, some "at INSERT INTO: expected at least one field to insert")
          else
            doParse fuel ⟨popN st.rest ln, .stepInsertFieldsCommaOrClosingParens,
              { st.query with fields := st.query.fields ++ [identifier.asString] },
              st.nextUpdateField⟩
      | .stepInsertFieldsCommaOrClosingParens =>
          let (tok, ln) := peekWithLength st.rest
          if tok ≠ ",".data && tok ≠ ")".data then
            (st, some "at INSERT INTO: expected comma or closing parens")
          else
            let r1 := popN st.rest ln
            if tok = ",".data then
              doParse fuel ⟨r1, .stepInsertFields, st.query, st.nextUpdateField⟩
            else
              doParse fuel ⟨r1, .stepInsertValuesRWord, st.query, st.nextUpdateField⟩
      | .stepInsertValuesRWord =>
          let (tok, ln) := peekWithLength st.rest
          if listToUpper tok ≠ "VALUES".data then
            (st, some "at INSERT INTO: expected 'VALUES'")
          else
            doParse fuel ⟨popN st.rest ln, .stepInsertValuesOpeningParens, st.query,
              st.nextUpdateField⟩
      | .stepInsertValuesOpeningParens =>
          let (tok, ln) := peekWithLength st.rest
          if tok ≠ "(".data then (st, some "at INSERT INTO: expected opening parens")
          else
            doParse fuel ⟨popN st.rest ln, .stepInsertValues,
              { st.query with inserts := st.query.inserts ++ [[]] }, st.nextUpdateField⟩
      | .stepInsertValues =>
          let (qv, ln) := peekQuotedStringWithLength st.rest
          if ln = 0 then (st, some "at INSERT INTO: expected quoted value")
          else
            let q1 := { st.query with
              inserts := updateLast (fun r => r ++ [qv.asString]) st.query.inserts }
            doParse fuel ⟨popN st.rest ln, .stepInsertValuesCommaOrClosingParens, q1,
              st.nextUpdateField⟩
      | .stepInsertValuesCommaOrClosingParens =>
          let (tok, ln) := peekWithLength st.rest
          if tok ≠ ",".data && tok ≠ ")".data then
            (st, some "at INSERT INTO: expected comma or closing parens")
          else
            let r1 := popN st.rest ln
            if tok = ",".data then
              doParse fuel ⟨r1, .stepInsertValues, st.query, st.nextUpdateField⟩
            else
              let currentInsertRow := st.query.inserts.getLastD []
              if currentInsertRow.length < st.query.fields.length then
                (⟨r1, st.step, st.query, st.nextUpdateField⟩,
                 some "at INSERT INTO: value count doesn't match field count")
              else
                doParse fuel ⟨r1, .stepInsertValuesCommaBeforeOpeningParens, st.query,
                  st.nextUpdateField⟩
      | .stepInsertValuesCommaBeforeOpeningParens =>
          let (tok, ln) := peekWithLength st.rest
          if listToUpper tok ≠ ",".data then (st, some "at INSERT INTO: expected comma")
          else
            doParse fuel ⟨popN st.rest ln, .stepInsertValuesOpeningParens, st.query,
              st.nextUpdateField⟩

/-! ## Validator (`parser.validate`) -/

/-- The per-condition checks of `validate`, in loop order, first error wins. -/
def validateConds : List Condition → Option String
  | [] => none
  | c :: rest =>
      if c.operator = .unknownOperator then some "at WHERE: condition without operator"
      else if c.operand1 = "" ∧ c.operand1IsField then
        some "at WHERE: condition with empty left side operand"
      else if c.operator = .inOp ∨ c.operator = .notIn then
        if c.inValues.isEmpty then some "at WHERE: IN/NOT IN condition without values"
        else validateConds rest
      else if c.operand2 = "" ∧ c.operand2IsField then
        some "at WHERE: condition with empty right side operand"
      else validateConds rest

/-- `parser.validate`, run on the final parser state. -/
def validate (st : PState) : Option String :=
  if st.query.conditions.isEmpty ∧ st.step = .stepWhereField then
    some "at WHERE: empty WHERE clause"
  else if st.query.type = .unknownType then some "query type cannot be empty"
  else if st.query.type = .create then none
  else if st.query.tableName = "" then some "table name cannot be empty"
  else if st.query.conditions.isEmpty ∧ (st.query.type = .update ∨ st.query.type = .delete) then
    some "at WHERE: WHERE clause is mandatory for UPDATE & DELETE"
  else
    match validateConds st.query.conditions with
    | some e => some e
    | none =>
        if st.query.type = .insert ∧ st.query.inserts.isEmpty then
          some "at INSERT INTO: need at least one row to insert"
        else if st.query.type = .insert
            ∧ st.query.inserts.any (fun r => r.length ≠ st.query.fields.length) then
          some "at INSERT INTO: value count doesn't match field count"
        else none

/-- `parse`/`Parse` for a single statement: trim, run the state machine,
then validate. -/
def parseQ (s : String) : Except String Query :=
  let cs := goTrimSpace s.data
  let st0 : PState := ⟨cs, .stepType, emptyQuery, ""⟩
  match doParse (cs.length + 2) st0 with
  | (_, some e) => .error e
  | (st, none) =>
      match validate st with
      | some e => .error e
      | none => .ok st.query

/-! ## Rendering (`Query.String` of the query package) -/

/-- SELECT field list with aliases, comma separated. -/
def renderFieldsSelect (aliases : List (String × String)) : List String → String
  | [] => ""
  | [f] => f ++ (match lookupAssoc aliases f with | some a => " AS " ++ a | none => "")
  | f :: rest =>
      f ++ (match lookupAssoc aliases f with | some a => " AS " ++ a | none => "")
        ++ ", " ++ renderFieldsSelect aliases rest

/-- INSERT value tuples, comma separated. -/
def renderInsertRows : List (List String) → String
  | [] => ""
  | [r] => "('" ++ String.intercalate "', '" r ++ "')"
  | r :: rest =>
      "('" ++ String.intercalate "', '" r ++ "')" ++ ", " ++ renderInsertRows rest

/-- UPDATE SET entries, comma separated. -/
def renderUpdates : List (String × String) → String
  | [] => ""
  | [(f, v)] => f ++ " = '" ++ v ++ "'"
  | (f, v) :: rest => f ++ " = '" ++ v ++ "'" ++ ", " ++ renderUpdates rest

/-- CREATE TABLE field declarations, comma separated. -/
def renderCreateFields : List (String × String) → String
  | [] => ""
  | [(f, t)] => f ++ " " ++ t
  | (f, t) :: rest => f ++ " " ++ t ++ ", " ++ renderCreateFields rest

/-- One WHERE condition as rendered by `Query.String`. -/
def renderCondition (c : Condition) : String :=
  (if c.operand1IsField then c.operand1 else "'" ++ c.operand1 ++ "'")
    ++ " " ++ operatorGoString c.operator ++ " "
    ++ (if c.operator = .inOp ∨ c.operator = .notIn then
          "('" ++ String.intercalate "', '" c.inValues ++ "')"
        else if c.operand2IsField then c.operand2
        else "'" ++ c.operand2 ++ "'")

/-- WHERE conditions joined by AND. -/
def renderConditions : List Condition → String
  | [] => ""
  | [c] => renderCondition c
  | c :: rest => renderCondition c ++ " AND " ++ renderConditions rest

/-- `Query.String`: render the query back to dialect text. -/
def queryGoString (q : Query) : String :=
  match q.type with
  | .unknownType => ""
  | _ =>
      let head :=
        match q.type with
        | .select =>
            "SELECT "
              ++ (if q.fields.isEmpty then "*" else renderFieldsSelect q.aliases q.fields)
              ++ " FROM " ++ q.tableName
        | .insert =>
            "INSERT INTO " ++ q.tableName ++ " (" ++ String.intercalate ", " q.fields
              ++ ") VALUES " ++ renderInsertRows q.inserts
        | .update => "UPDATE " ++ q.tableName ++ " SET " ++ renderUpdates q.updates
        | .delete => "DELETE FROM " ++ q.tableName
        | .create =>
            "CREATE TABLE " ++ q.tableName ++ " (" ++ renderCreateFields q.createFields ++ ")"
        | .unknownType => ""
      head ++ (if q.conditions.isEmpty then ""
               else " WHERE " ++ renderConditions q.conditions)

/-! ## Regular-expression fragment

Both evaluators delegate `LIKE` to `regexp.MatchString("^" ++ p ++ "$", s)`.
The standard-library engine is modelled here for exactly the anchored
fragment those call sites generate: literal characters, `.`, a postfix
`*`, and backslash escapes.  Any other metacharacter makes the parse
fail, and a failed parse yields `false`, as both call sites treat a
`MatchString` error.  (Go's `.` does not match a newline; neither does
the model's.) -/

/-- A regex atom base: `.` or a literal character. -/
inductive RBase : Type where
  | dot : RBase
  | lit : Char → RBase
  deriving Repr, DecidableEq

/-- An atom with its optional postfix `*`. -/
abbrev RAtom := RBase × Bool

/-- Characters that the modelled fragment does not support unescaped. -/
def unsupportedMeta : List Char :=
  ['*', '+', '?', '(', ')', '[', ']', Char.ofNat 123, Char.ofNat 125, '|', '^', '$']

/-- Parse the modelled regex fragment into atoms; `none` on anything the
fragment does not cover (a regex-compile error at the call sites). -/
def regexParse : List Char → Option (List RAtom)
  | [] => some []
  | ['\\'] => none
  | '\\' :: d :: '*' :: rest => (regexParse rest).map (fun as => (.lit d, true) :: as)
  | '\\' :: d :: rest => (regexParse rest).map (fun as => (.lit d, false) :: as)
  | '.' :: '*' :: rest => (regexParse rest).map (fun as => (.dot, true) :: as)
  | '.' :: rest => (regexParse rest).map (fun as => (.dot, false) :: as)
  | c :: '*' :: rest =>
      if c ∈ unsupportedMeta then none
      else (regexParse rest).map (fun as => (.lit c, true) :: as)
  | c :: rest =>
      if c ∈ unsupportedMeta then none
      else (regexParse rest).map (fun as => (.lit c, false) :: as)

/-- Whether base `b` matches character `c` (Go's `.` excludes newline). -/
def bmatch (b : RBase) (c : Char) : Bool :=
  match b with
  | .dot => c ≠ '\n'
  | .lit a => a = c

/-- The suffixes of `s` reachable by consuming zero or more characters
matching base `b` — the candidate remainders after a starred atom. -/
def starSplits (b : RBase) : List Char → List (List Char)
  | [] => [[]]
  | c :: s' => (c :: s') :: (if bmatch b c then starSplits b s' else [])

/-- Full-string matching of an atom sequence; a starred atom consumes
any number of matching characters. -/
def rmatch : List RAtom → List Char → Bool
  | [], s => s.isEmpty
  | (b, false) :: rs, s =>
      match s with
      | [] => false
      | c :: s' => bmatch b c && rmatch rs s'
  | (b, true) :: rs, s => (starSplits b s).any (fun v => rmatch rs v)

/-- `regexp.MatchString("^" ++ pattern ++ "$", s)` on the modelled
fragment; a parse failure (compile error) yields `false`. -/
def goRegexMatchAnchored (pattern : List Char) (s : List Char) : Bool :=
  match regexParse pattern with
  | none => false
  | some atoms => rmatch atoms s

/-! ## Go string ordering -/

/-- Lexicographic comparison of character lists by code point; on valid
UTF-8 this coincides with Go's byte-wise string `<`. -/
def listLtB : List Char → List Char → Bool
  | _, [] => false
  | [], _ :: _ => true
  | a :: as, b :: bs =>
      if a.toNat < b.toNat then true
      else if b.toNat < a.toNat then false
      else listLtB as bs

/-- Go `s1 < s2` on strings. -/
def goStrLt (a b : String) : Bool := listLtB a.data b.data

/-- Go `s1 <= s2` on strings (total order: `a ≤ b ↔ ¬ b < a`). -/
def goStrLe (a b : String) : Bool := !goStrLt b a

/-! ## Iterative evaluator (`Filter` / `checkConditions` / `checkCondition`) -/

/-- The nested-field walk inlined in `checkCondition`: follow the dotted
path through nested maps; a missing segment, a non-map intermediate
value, or a missing final segment resolves to nothing. -/
def resolvePathIter (row : Row) : List String → Option Value
  | [] => none
  | [p] => lookupAssoc row p
  | p :: rest =>
      match lookupAssoc row p with
      | some (.vMap m) => resolvePathIter m rest
      | _ => none

/-- `strings.ReplaceAll(s, pattern, replacement)` for a single-character
pattern. -/
def replaceAllChar (s : List Char) (c : Char) (rep : List Char) : List Char :=
  s.flatMap (fun ch => if ch = c then rep else [ch])

/-- The LIKE translation of the iterative evaluator: `%` → `.*` and
`_` → `.`, with no other escaping. -/
def likeTranslateIter (p : List Char) : List Char :=
  replaceAllChar (replaceAllChar p '%' ".*".data) '_' ".".data

/-- The IN membership loop of `checkCondition`: first rendered-value
match wins. -/
def goInListIter (v : Value) : List String → Bool
  | [] => false
  | iv :: rest => if renderValue v = iv then true else goInListIter v rest

/-- `checkCondition`: resolve the dotted field, then compare according to
the operator.  `Gt`/`Gte`/`Lt`/`Lte` always compare the default string
renderings lexicographically. -/
def checkCondition (row : Row) (cond : Condition) : Bool :=
  match resolvePathIter row (goSplitDot cond.operand1) with
  | none => false
  | some value =>
      match cond.operator with
      | .eq => renderValue value = cond.operand2
      | .ne => renderValue value ≠ cond.operand2
      | .gt => goStrLt cond.operand2 (renderValue value)
      | .gte => goStrLe cond.operand2 (renderValue value)
      | .lt => goStrLt (renderValue value) cond.operand2
      | .lte => goStrLe (renderValue value) cond.operand2
      | .like =>
          match value with
          | .vStr s => goRegexMatchAnchored (likeTranslateIter cond.operand2.data) s.data
          | _ => false
      | .notLike =>
          match value with
          | .vStr s => !goRegexMatchAnchored (likeTranslateIter cond.operand2.data) s.data
          | _ => false
      | .inOp => goInListIter value cond.inValues
      | .notIn => !goInListIter value cond.inValues
      | .unknownOperator => false

/-- The conjunction loop of `checkConditions`. -/
def condsLoop (row : Row) : List Condition → Bool
  | [] => true
  | c :: rest => if checkCondition row c then condsLoop row rest else false

/-- `checkConditions`: empty list matches everything, otherwise every
condition must hold (short-circuiting). -/
def checkConditions (row : Row) (conds : List Condition) : Bool :=
  if conds.isEmpty then true else condsLoop row conds

/-- The record loop shared by `Filter` (keys in list order stand for Go's
map iteration). -/
def filterLoop (data : List (String × Row)) (conds : List Condition) :
    List (String × Row) :=
  match data with
  | [] => []
  | (k, row) :: rest =>
      if checkConditions row conds then (k, row) :: filterLoop rest conds
      else filterLoop rest conds

/-- `Filter`: parse, reject non-SELECT, keep the matching records. -/
def goFilter (sql : String) (data : List (String × Row)) :
    Except String (List (String × Row)) :=
  match parseQ sql with
  | .error e => .error ("failed to parse SQL: " ++ e)
  | .ok q =>
      if q.type ≠ .select then .error "only SELECT queries can be filtered"
      else .ok (filterLoop data q.conditions)

/-! ## Recursive evaluator (`FilterRecursive` family) -/

/-- `getFieldValueRecursive`: the index argument of the Go code is
represented by the remaining suffix of the split path. -/
def getFieldValueRecursive (data : Row) : List String → Option Value
  | [] => none
  | [p] => lookupAssoc data p
  | p :: rest =>
      match lookupAssoc data p with
      | none => none
      | some v =>
          match v with
          | .vMap m => getFieldValueRecursive m rest
          | _ => none

/-- The numeric conversion of `compareNumericRecursive`: integers
directly, strings via `ParseFloat`, anything else fails.  (The code's
`int64`/`float32`/`float64` cases have no counterpart in the value
domain.) -/
def goNumConv : Value → Option ℚ
  | .vInt n => some (n : ℚ)
  | .vStr s => parseFloat s
  | _ => none

/-- `performNumericComparisonRecursive` (operation names are the strings
the Go code passes around). -/
def performNumericComparisonRecursive (val1 val2 : ℚ) (operation : String) : Bool :=
  if operation = "eq" then val1 = val2
  else if operation = "gt" then val1 > val2
  else if operation = "gte" then val1 ≥ val2
  else if operation = "lt" then val1 < val2
  else if operation = "lte" then val1 ≤ val2
  else false

/-- `compareStringRecursive`. -/
def compareStringRecursive (val1 val2 : String) (operation : String) : Bool :=
  if operation = "eq" then val1 = val2
  else if operation = "gt" then goStrLt val2 val1
  else if operation = "gte" then goStrLe val2 val1
  else if operation = "lt" then goStrLt val1 val2
  else if operation = "lte" then goStrLe val1 val2
  else false

/-- `compareNumericRecursive`: `some r` when both sides convert to
numbers (`r` the comparison), `none` otherwise. -/
def compareNumericRecursive (value : Value) (operand2 : String) (operation : String) :
    Option Bool :=
  match goNumConv value, parseFloat operand2 with
  | some a, some b => some (performNumericComparisonRecursive a b operation)
  | _, _ => none

/-- `compareValuesRecursive`: numeric first, then string fallback. -/
def compareValuesRecursive (value : Value) (operand2 : String) (operation : String) :
    Bool :=
  match compareNumericRecursive value operand2 operation with
  | some r => r
  | none => compareStringRecursive (renderValue value) operand2 operation

/-- The regex metacharacters escaped by `convertLikePatternRecursive`
(the Go `switch`'s case list). -/
def regexMetaChars : List Char :=
  ['.', '*', '+', '?', '^', '$', '(', ')', '[', ']',
   Char.ofNat 123, Char.ofNat 125, '|', '\\']

/-- `convertLikePatternRecursive` (index and accumulated result carried
as the remaining suffix and accumulator). -/
def convertLikePatternRecursive : List Char → List Char → List Char
  | [], result => result
  | c :: rest, result =>
      if c = '%' then convertLikePatternRecursive rest (result ++ ".*".data)
      else if c = '_' then convertLikePatternRecursive rest (result ++ ".".data)
      else if c ∈ regexMetaChars then
        convertLikePatternRecursive rest (result ++ ['\\', c])
      else convertLikePatternRecursive rest (result ++ [c])

/-- `evaluateLikeRecursive`: non-strings never match; otherwise match
against the escaped, anchored translation. -/
def evaluateLikeRecursive (value : Value) (pattern : String) : Bool :=
  match value with
  | .vStr s => goRegexMatchAnchored (convertLikePatternRecursive pattern.data []) s.data
  | _ => false

/-- `evaluateInRecursive` (index recursion as suffix recursion). -/
def evaluateInRecursive (value : Value) : List String → Bool
  | [] => false
  | iv :: rest =>
      if renderValue value = iv then true else evaluateInRecursive value rest

/-- `evaluateOperatorRecursive`. -/
def evaluateOperatorRecursive (value : Value) (cond : Condition) : Bool :=
  match cond.operator with
  | .eq => compareValuesRecursive value cond.operand2 "eq"
  | .ne => !compareValuesRecursive value cond.operand2 "eq"
  | .gt => compareValuesRecursive value cond.operand2 "gt"
  | .gte => compareValuesRecursive value cond.operand2 "gte"
  | .lt => compareValuesRecursive value cond.operand2 "lt"
  | .lte => compareValuesRecursive value cond.operand2 "lte"
  | .like => evaluateLikeRecursive value cond.operand2
  | .notLike => !evaluateLikeRecursive value cond.operand2
  | .inOp => evaluateInRecursive value cond.inValues
  | .notIn => !evaluateInRecursive value cond.inValues
  | .unknownOperator => false

/-- `evaluateConditionRecursive`. -/
def evaluateConditionRecursive (row : Row) (cond : Condition) : Bool :=
  match getFieldValueRecursive row (goSplitDot cond.operand1) with
  | none => false
  | some value => evaluateOperatorRecursive value cond

/-- The conjunction of `evaluateConditionsRecursive` from a suffix. -/
def evalCondsFrom (row : Row) : List Condition → Bool
  | [] => true
  | c :: rest =>
      if evaluateConditionRecursive row c then evalCondsFrom row rest else false

/-- `evaluateConditionsRecursive(row, conditions, conditionIndex)`: the
index is represented by dropping the already-evaluated prefix
(`conditions.drop (i+1) = (conditions.drop i).tail`). -/
def evaluateConditionsRecursive (row : Row) (conds : List Condition) (i : Nat) : Bool :=
  evalCondsFrom row (conds.drop i)

/-- The record loop of `FilterRecursive`. -/
def filterLoopRecursive (data : List (String × Row)) (conds : List Condition) :
    List (String × Row) :=
  match data with
  | [] => []
  | (k, row) :: rest =>
      if evaluateConditionsRecursive row conds 0 then
        (k, row) :: filterLoopRecursive rest conds
      else filterLoopRecursive rest conds

/-- `FilterRecursive`. -/
def goFilterRecursive (sql : String) (data : List (String × Row)) :
    Except String (List (String × Row)) :=
  match parseQ sql with
  | .error e => .error ("failed to parse SQL: " ++ e)
  | .ok q =>
      if q.type ≠ .select then .error "only SELECT queries can be filtered"
      else .ok (filterLoopRecursive data q.conditions)

/-! ## Specification-level LIKE semantics -/

/-- All suffixes of a list (dropping zero or more leading characters). -/
def listSuffixes : List Char → List (List Char)
  | [] => [[]]
  | c :: t => (c :: t) :: listSuffixes t

/-- Suffixes reachable by dropping zero or more leading non-newline
characters. -/
def listSuffixesNoNl : List Char → List (List Char)
  | [] => [[]]
  | c :: t => (c :: t) :: (if c = '\n' then [] else listSuffixesNoNl t)

/-- Modelled from the spec: the LIKE semantics the specification
describes — `%` matches any sequence of zero or more characters, `_`
matches exactly one character, and every other character of the pattern
matches itself literally (the spec's "every other regex-metacharacter is
escaped"). -/
def specLikeMatch : List Char → List Char → Bool
  | [], s => s.isEmpty
  | '%' :: t, s => (listSuffixes s).any (fun s' => specLikeMatch t s')
  | '_' :: t, s =>
      match s with
      | [] => false
      | _ :: s' => specLikeMatch t s'
  | c :: t, s =>
      match s with
      | [] => false
      | d :: s' => c = d && specLikeMatch t s'

/-- The LIKE semantics the recursive evaluator actually implements: as
`specLikeMatch`, except that `%` and `_` only match characters other
than newline (Go's regexp `.` excludes `\n`). -/
def amendedLikeMatch : List Char → List Char → Bool
  | [], s => s.isEmpty
  | '%' :: t, s => (listSuffixesNoNl s).any (fun s' => amendedLikeMatch t s')
  | '_' :: t, s =>
      match s with
      | [] => false
      | d :: s' => d ≠ '\n' && amendedLikeMatch t s'
  | c :: t, s =>
      match s with
      | [] => false
      | d :: s' => c = d && amendedLikeMatch t s'

/-! ## Definitions used by the theorem statements -/

/-- Per-character output of `convertLikePatternRecursive`. -/
def likeEnc (c : Char) : List Char :=
  if c = '%' then ".*".data
  else if c = '_' then ".".data
  else if c ∈ regexMetaChars then ['\\', c]
  else [c]

/-- The regex atom a LIKE-pattern character denotes after translation. -/
def likeAtom (c : Char) : RAtom :=
  if c = '%' then (.dot, true)
  else if c = '_' then (.dot, false)
  else (.lit c, false)

/-- The operation string the recursive evaluator passes for a comparison
operator. -/
def dirString : Operator → String
  | .eq => "eq"
  | .gt => "gt"
  | .gte => "gte"
  | .lt => "lt"
  | .lte => "lte"
  | _ => ""

/-- Conditions on which the iterative and the recursive evaluator are
claimed to agree: unresolvable left operand, IN/NOT IN (or unknown)
operators, comparisons in which at least one side fails numeric
conversion, and LIKE/NOT LIKE patterns free of regex metacharacters. -/
def condAgrees (row : Row) (c : Condition) : Prop :=
  resolvePathIter row (goSplitDot c.operand1) = none
  ∨ c.operator = .inOp ∨ c.operator = .notIn ∨ c.operator = .unknownOperator
  ∨ ((c.operator = .eq ∨ c.operator = .ne ∨ c.operator = .gt ∨ c.operator = .gte
        ∨ c.operator = .lt ∨ c.operator = .lte)
      ∧ ∀ v, resolvePathIter row (goSplitDot c.operand1) = some v →
          goNumConv v = none ∨ parseFloat c.operand2 = none)
  ∨ ((c.operator = .like ∨ c.operator = .notLike)
      ∧ (∀ ch ∈ c.operand2.data, ch ∉ regexMetaChars)
      ∧ (c.operator = .notLike →
          ∀ v, resolvePathIter row (goSplitDot c.operand1) = some v →
            ∃ s, v = .vStr s))

/-! ## Lemmas: structural equivalences between the two evaluators -/

/-- The inline field walk of `checkCondition` and `getFieldValueRecursive`
perform the same traversal. -/
theorem resolvePathIter_eq_getFieldValueRecursive :
    ∀ (parts : List String) (row : Row),
      resolvePathIter row parts = getFieldValueRecursive row parts := by
  intro parts
  induction parts with
  | nil => intro row; rfl
  | cons p rest ih =>
      intro row
      cases rest with
      | nil => rfl
      | cons q rest' =>
          simp only [resolvePathIter, getFieldValueRecursive]
          cases lookupAssoc row p with
          | none => rfl
          | some v => cases v <;> simp [ih]

/-- The IN loops of the two evaluators agree. -/
theorem goInListIter_eq_evaluateInRecursive (v : Value) :
    ∀ ivs, goInListIter v ivs = evaluateInRecursive v ivs := by
  intro ivs
  induction ivs with
  | nil => rfl
  | cons a t ih => simp only [goInListIter, evaluateInRecursive, ih]

/-- The conjunction loop of `checkConditions` is `List.all`. -/
theorem condsLoop_eq_all (row : Row) :
    ∀ conds, condsLoop row conds = conds.all (checkCondition row) := by
  intro conds
  induction conds with
  | nil => rfl
  | cons c t ih =>
      simp only [condsLoop, List.all_cons, ih]
      cases checkCondition row c <;> simp

/-- `checkConditions` is the `List.all` conjunction (the leading
empty-list test is redundant). -/
theorem checkConditions_eq_all (row : Row) (conds : List Condition) :
    checkConditions row conds = conds.all (checkCondition row) := by
  cases conds with
  | nil => rfl
  | cons c t => simp only [checkConditions, condsLoop_eq_all]; rfl

/-- The record loop of `Filter` keeps exactly the records passing
`checkConditions`, in order, unchanged. -/
theorem filterLoop_eq_filter (conds : List Condition) :
    ∀ data, filterLoop data conds = data.filter (fun kv => checkConditions kv.2 conds) := by
  intro data
  induction data with
  | nil => rfl
  | cons kv rest ih =>
      obtain ⟨k, row⟩ := kv
      simp only [filterLoop, List.filter, ih]
      cases checkConditions row conds <;> simp

/-- The record loop of `FilterRecursive` keeps exactly the records
passing `evaluateConditionsRecursive` from index 0. -/
theorem filterLoopRecursive_eq_filter (conds : List Condition) :
    ∀ data, filterLoopRecursive data conds
      = data.filter (fun kv => evaluateConditionsRecursive kv.2 conds 0) := by
  intro data
  induction data with
  | nil => rfl
  | cons kv rest ih =>
      obtain ⟨k, row⟩ := kv
      simp only [filterLoopRecursive, List.filter, ih]
      cases evaluateConditionsRecursive row conds 0 <;> simp

/-! ## Lemmas: decimal rendering parses back to the same number -/

theorem data_asString (l : List Char) : (l.asString).data = l := rfl

theorem digitChar_isDigit {n : Nat} (h : n < 10) : (digitChar n).isDigit = true := by
  interval_cases n <;> decide

theorem digitChar_toNat {n : Nat} (h : n < 10) : (digitChar n).toNat - 48 = n := by
  interval_cases n <;> decide

theorem digitsVal_append_digit (xs : List Char) (c : Char) :
    digitsVal (xs ++ [c]) = 10 * digitsVal xs + (c.toNat - 48) := by
  simp [digitsVal, List.foldl_append]

/-- With enough fuel, `natDigits` yields a non-empty all-digit list whose
decimal value is the input. -/
theorem natDigits_spec :
    ∀ fuel n, n < fuel →
      (natDigits fuel n).all Char.isDigit = true ∧ natDigits fuel n ≠ [] ∧
        digitsVal (natDigits fuel n) = n := by
  intro fuel
  induction fuel with
  | zero => intro n h; omega
  | succ f ih =>
      intro n h
      by_cases h10 : n < 10
      · refine ⟨?_, ?_, ?_⟩ <;> interval_cases n <;> simp [natDigits, digitsVal] <;> decide
      · have h1 : n / 10 < n := Nat.div_lt_self (by omega) (by omega)
        have hf : n / 10 < f := by omega
        obtain ⟨ha, hne, hv⟩ := ih (n / 10) hf
        have hm : n % 10 < 10 := Nat.mod_lt _ (by omega)
        simp only [natDigits, if_neg h10]
        refine ⟨?_, by simp, ?_⟩
        · simp [List.all_append, ha, digitChar_isDigit hm]
        · rw [digitsVal_append_digit, hv, digitChar_toNat hm]
          omega

theorem takeWhile_of_all {p : Char → Bool} :
    ∀ l : List Char, l.all p = true → l.takeWhile p = l ∧ l.dropWhile p = [] := by
  intro l
  induction l with
  | nil => simp
  | cons c t ih =>
      intro h
      simp only [List.all_cons, Bool.and_eq_true] at h
      simp [List.takeWhile_cons, List.dropWhile_cons, h.1, ih h.2]

theorem parseFloatUnsigned_digits (ds : List Char)
    (ha : ds.all Char.isDigit = true) (hne : ds ≠ []) :
    parseFloatUnsigned ds = some (digitsVal ds : ℚ) := by
  obtain ⟨ht, hd⟩ := takeWhile_of_all ds ha
  simp [parseFloatUnsigned, ht, hd, hne]

theorem parseFloatL_cons_default (c : Char) (t : List Char)
    (h2 : c ≠ '+') (h3 : c ≠ '-') :
    parseFloatL (c :: t) = parseFloatUnsigned (c :: t) := by
  simp only [parseFloatL]
  split
  · rename_i heq; exact List.noConfusion heq
  · rename_i t' heq
    injection heq with hc _
    exact absurd hc h2
  · rename_i t' heq
    injection heq with hc _
    exact absurd hc h3
  · rfl

theorem parseFloatL_digits (ds : List Char)
    (ha : ds.all Char.isDigit = true) (hne : ds ≠ []) :
    parseFloatL ds = some (digitsVal ds : ℚ) := by
  cases ds with
  | nil => exact absurd rfl hne
  | cons c t =>
      have hc : c.isDigit = true := by
        simp only [List.all_cons, Bool.and_eq_true] at ha
        exact ha.1
      have hplus : c ≠ '+' := by intro h; rw [h] at hc; simp at hc
      have hminus : c ≠ '-' := by intro h; rw [h] at hc; simp at hc
      rw [parseFloatL_cons_default c t hplus hminus]
      exact parseFloatUnsigned_digits _ ha hne

theorem parseFloatL_head_not_num (c : Char) (t : List Char)
    (h1 : c.isDigit = false) (h2 : c ≠ '+') (h3 : c ≠ '-') (h4 : c ≠ '.') :
    parseFloatL (c :: t) = none := by
  rw [parseFloatL_cons_default c t h2 h3]
  simp only [parseFloatUnsigned, List.takeWhile_cons, List.dropWhile_cons, h1]
  simp only [Bool.false_eq_true, if_false]
  split
  · rename_i heq; exact List.noConfusion heq
  · rename_i fp heq
    injection heq with hc _
    exact absurd hc h4
  · rfl

/-- The numeric conversion by dynamic type in `compareNumericRecursive`
coincides, on the modelled value domain, with parsing the value's
default string rendering. -/
theorem goNumConv_eq_parseFloat_render :
    ∀ v : Value, goNumConv v = parseFloat (renderValue v) := by
  intro v
  cases v with
  | vStr s => rfl
  | vInt n =>
      cases n with
      | ofNat m =>
          obtain ⟨ha, hne, hv⟩ := natDigits_spec (m + 1) m (by omega)
          show some ((Int.ofNat m : ℚ)) = parseFloatL (natDigits (m + 1) m)
          rw [parseFloatL_digits _ ha hne, hv]
          norm_num
      | negSucc m =>
          obtain ⟨ha, hne, hv⟩ := natDigits_spec (m + 2) (m + 1) (by omega)
          show some ((Int.negSucc m : ℚ)) = parseFloatL ('-' :: natDigits (m + 2) (m + 1))
          have : parseFloatL ('-' :: natDigits (m + 2) (m + 1))
              = (parseFloatUnsigned (natDigits (m + 2) (m + 1))).map (fun q => -q) := rfl
          rw [this, parseFloatUnsigned_digits _ ha hne, hv]
          simp [Int.cast_negSucc]
  | vBool b => cases b <;> rfl
  | vMap m =>
      show none = parseFloat (renderValue (.vMap m))
      have : parseFloat (renderValue (.vMap m))
          = parseFloatL ('m' :: ("ap[".data ++ (renderEntriesL m ++ [']']))) := rfl
      rw [this, parseFloatL_head_not_num _ _ (by decide) (by decide) (by decide) (by decide)]

/-! ## Lemmas: LIKE translation and matching -/

theorem convertLike_eq_flatMap :
    ∀ p acc : List Char, convertLikePatternRecursive p acc = acc ++ p.flatMap likeEnc := by
  intro p
  induction p with
  | nil => intro acc; simp [convertLikePatternRecursive]
  | cons c t ih =>
      intro acc
      by_cases h1 : c = '%'
      · subst h1; simp [convertLikePatternRecursive, likeEnc, ih]
      · by_cases h2 : c = '_'
        · subst h2; simp [convertLikePatternRecursive, likeEnc, ih]
        · by_cases h3 : c ∈ regexMetaChars
          · simp [convertLikePatternRecursive, likeEnc, h1, h2, h3, ih]
          · simp [convertLikePatternRecursive, likeEnc, h1, h2, h3, ih]

theorem likeEnc_flatMap_shape (t : List Char) :
    (t = [] ∧ t.flatMap likeEnc = [])
      ∨ ∃ c r, t.flatMap likeEnc = c :: r ∧ c ≠ '*' := by
  cases t with
  | nil => left; exact ⟨rfl, rfl⟩
  | cons c t' =>
      right
      simp only [List.flatMap_cons]
      by_cases h1 : c = '%'
      · subst h1; exact ⟨'.', _, rfl, by decide⟩
      · by_cases h2 : c = '_'
        · subst h2; exact ⟨'.', _, rfl, by decide⟩
        · by_cases h3 : c ∈ regexMetaChars
          · refine ⟨'\\', c :: t'.flatMap likeEnc, ?_, by decide⟩
            simp [likeEnc, h1, h2, h3]
          · refine ⟨c, t'.flatMap likeEnc, ?_, ?_⟩
            · simp [likeEnc, h1, h2, h3]
            · intro hc; subst hc; exact h3 (by decide)

theorem regexParse_dot_star (r : List Char) :
    regexParse ('.' :: '*' :: r) = (regexParse r).map (fun as => (.dot, true) :: as) := rfl

theorem regexParse_dot_nostar (c : Char) (r : List Char) (h : c ≠ '*') :
    regexParse ('.' :: c :: r)
      = (regexParse (c :: r)).map (fun as => (.dot, false) :: as) := by
  conv_lhs => rw [regexParse.eq_def]
  simp [h]

theorem regexParse_esc_nostar (d c : Char) (r : List Char) (h : c ≠ '*') :
    regexParse ('\\' :: d :: c :: r)
      = (regexParse (c :: r)).map (fun as => (.lit d, false) :: as) := by
  conv_lhs => rw [regexParse.eq_def]
  simp [h]

theorem regexParse_esc_single (d : Char) : regexParse ['\\', d] = some [(.lit d, false)] := by
  conv_lhs => rw [regexParse.eq_def]
  simp [regexParse]

theorem regexParse_lit_single (c : Char) (h1 : c ≠ '\\') (h2 : c ≠ '.')
    (h3 : c ∉ unsupportedMeta) : regexParse [c] = some [(.lit c, false)] := by
  conv_lhs => rw [regexParse.eq_def]
  simp [regexParse, h1, h2, h3]

theorem regexParse_lit_nostar (c d : Char) (r : List Char) (h1 : c ≠ '\\') (h2 : c ≠ '.')
    (h3 : c ∉ unsupportedMeta) (h4 : d ≠ '*') :
    regexParse (c :: d :: r)
      = (regexParse (d :: r)).map (fun as => (.lit c, false) :: as) := by
  conv_lhs => rw [regexParse.eq_def]
  simp [h1, h2, h3, h4]

theorem unsupported_subset_meta (c : Char) (h : c ∈ unsupportedMeta) :
    c ∈ regexMetaChars := by
  fin_cases h <;> decide

/-- Parsing the escaped LIKE translation recovers exactly one atom per
pattern character. -/
theorem regexParse_flatMap_likeEnc :
    ∀ p : List Char, regexParse (p.flatMap likeEnc) = some (p.map likeAtom) := by
  intro p
  induction p with
  | nil => rfl
  | cons c t ih =>
      simp only [List.flatMap_cons, List.map_cons]
      rcases likeEnc_flatMap_shape t with ⟨ht, hnil⟩ | ⟨c', r, heq, hne⟩
      · subst ht
        simp only [List.flatMap_nil, List.append_nil, List.map_nil]
        by_cases h1 : c = '%'
        · subst h1; exact regexParse_dot_star []
        · by_cases h2 : c = '_'
          · subst h2
            show regexParse ['.'] = _
            simp [regexParse, likeAtom, h1]
          · by_cases h3 : c ∈ regexMetaChars
            · rw [show likeEnc c = ['\\', c] by simp [likeEnc, h1, h2, h3]]
              rw [regexParse_esc_single]
              simp [likeAtom, h1, h2]
            · rw [show likeEnc c = [c] by simp [likeEnc, h1, h2, h3]]
              rw [regexParse_lit_single c
                    (fun hc => h3 (hc ▸ (by decide)))
                    (fun hc => h3 (hc ▸ (by decide)))
                    (fun hc => h3 (unsupported_subset_meta c hc))]
              simp [likeAtom, h1, h2]
      · by_cases h1 : c = '%'
        · subst h1
          show regexParse ('.' :: '*' :: t.flatMap likeEnc) = _
          rw [regexParse_dot_star, ih]
          simp [likeAtom]
        · by_cases h2 : c = '_'
          · subst h2
            show regexParse ('.' :: t.flatMap likeEnc) = _
            rw [heq, regexParse_dot_nostar c' r hne, ← heq, ih]
            simp [likeAtom]
          · by_cases h3 : c ∈ regexMetaChars
            · rw [show likeEnc c = ['\\', c] by simp [likeEnc, h1, h2, h3]]
              show regexParse ('\\' :: c :: t.flatMap likeEnc) = _
              rw [heq, regexParse_esc_nostar c c' r hne, ← heq, ih]
              simp [likeAtom, h1, h2]
            · rw [show likeEnc c = [c] by simp [likeEnc, h1, h2, h3]]
              show regexParse (c :: t.flatMap likeEnc) = _
              rw [heq, regexParse_lit_nostar c c' r
                    (fun hc => h3 (hc ▸ (by decide)))
                    (fun hc => h3 (hc ▸ (by decide)))
                    (fun hc => h3 (unsupported_subset_meta c hc)) hne,
                  ← heq, ih]
              simp [likeAtom, h1, h2]

theorem amendedLikeMatch_percent (t s : List Char) :
    amendedLikeMatch ('%' :: t) s
      = (listSuffixesNoNl s).any (fun x => amendedLikeMatch t x) := by
  simp [amendedLikeMatch]

theorem starSplits_dot (s : List Char) : starSplits .dot s = listSuffixesNoNl s := by
  induction s with
  | nil => rfl
  | cons c s' ih =>
      by_cases hc : c = '\n'
      · subst hc; simp [starSplits, listSuffixesNoNl, bmatch]
      · simp [starSplits, listSuffixesNoNl, bmatch, hc, ih]

/-- The modelled regex matcher on translated atoms computes exactly the
(newline-excluding) LIKE semantics. -/
theorem rmatch_likeAtom : ∀ p s, rmatch (p.map likeAtom) s = amendedLikeMatch p s := by
  intro p
  induction p with
  | nil => intro s; simp [rmatch, amendedLikeMatch]
  | cons c t ih =>
      intro s
      simp only [List.map_cons]
      by_cases h1 : c = '%'
      · subst h1
        rw [show likeAtom '%' = (.dot, true) from rfl]
        rw [show rmatch ((RBase.dot, true) :: List.map likeAtom t) s
              = (starSplits .dot s).any (fun v => rmatch (List.map likeAtom t) v) from rfl]
        rw [starSplits_dot, amendedLikeMatch_percent]
        simp [ih]
      · by_cases h2 : c = '_'
        · subst h2
          rw [show likeAtom '_' = (.dot, false) from rfl]
          cases s with
          | nil => simp [rmatch, amendedLikeMatch]
          | cons d s' => simp [rmatch, amendedLikeMatch, bmatch, ih]
        · rw [show likeAtom c = (.lit c, false) by simp [likeAtom, h1, h2]]
          cases s with
          | nil => simp [rmatch, amendedLikeMatch, h1, h2]
          | cons d s' => simp [rmatch, amendedLikeMatch, bmatch, h1, h2, ih]

/-- The recursive evaluator computes the newline-excluding LIKE
semantics on string values. -/
theorem evaluateLikeRecursive_eq_amended (pattern s : String) :
    evaluateLikeRecursive (.vStr s) pattern = amendedLikeMatch pattern.data s.data := by
  show goRegexMatchAnchored (convertLikePatternRecursive pattern.data []) s.data = _
  rw [convertLike_eq_flatMap, List.nil_append]
  unfold goRegexMatchAnchored
  rw [regexParse_flatMap_likeEnc]
  exact rmatch_likeAtom _ _

/-- On metacharacter-free patterns the two LIKE translations produce the
same regex text. -/
theorem likeTranslateIter_eq_convert :
    ∀ p : List Char, (∀ c ∈ p, c ∉ regexMetaChars) →
      likeTranslateIter p = convertLikePatternRecursive p [] := by
  intro p hp
  rw [convertLike_eq_flatMap, List.nil_append]
  unfold likeTranslateIter replaceAllChar
  induction p with
  | nil => rfl
  | cons c t ih =>
      have hc := hp c (by simp)
      have ht : ∀ x ∈ t, x ∉ regexMetaChars := fun x hx => hp x (by simp [hx])
      simp only [List.flatMap_cons, List.flatMap_append]
      rw [ih ht]
      by_cases h1 : c = '%'
      · subst h1; rfl
      · by_cases h2 : c = '_'
        · subst h2; rfl
        · have h3 : ¬(c ∈ regexMetaChars) := hc
          simp [likeEnc, h1, h2, h3]

/-! ## Lemmas: agreement of the two evaluators -/

/-- Both sides fail numeric conversion only jointly. -/
theorem compareNumericRecursive_none (v : Value) (op2 dir : String)
    (h : goNumConv v = none ∨ parseFloat op2 = none) :
    compareNumericRecursive v op2 dir = none := by
  unfold compareNumericRecursive
  rcases h with h | h
  · rw [h]
  · rw [h]; cases goNumConv v <;> rfl

/-- On conditions satisfying `condAgrees`, the two single-condition
evaluators coincide. -/
theorem checkCondition_eq_recursive_of_agrees (row : Row) (c : Condition)
    (h : condAgrees row c) :
    checkCondition row c = evaluateConditionRecursive row c := by
  have hres := resolvePathIter_eq_getFieldValueRecursive (goSplitDot c.operand1) row
  cases hR : resolvePathIter row (goSplitDot c.operand1) with
  | none =>
      have hR2 : getFieldValueRecursive row (goSplitDot c.operand1) = none := by
        rw [← hres, hR]
      simp [checkCondition, evaluateConditionRecursive, hR, hR2]
  | some v =>
      have hR2 : getFieldValueRecursive row (goSplitDot c.operand1) = some v := by
        rw [← hres, hR]
      simp only [checkCondition, evaluateConditionRecursive, hR, hR2]
      rcases h with hnone | hin | hnotin | hunk | ⟨hcmp, hnum⟩ | ⟨hlike, hmeta⟩
      · rw [hnone] at hR; exact Option.noConfusion hR
      · simp [evaluateOperatorRecursive, goInListIter_eq_evaluateInRecursive, hin]
      · simp [evaluateOperatorRecursive, goInListIter_eq_evaluateInRecursive, hnotin]
      · simp [evaluateOperatorRecursive, hunk]
      · have hAll : ∀ dir, compareNumericRecursive v c.operand2 dir = none :=
          fun dir => compareNumericRecursive_none v c.operand2 dir (hnum v hR)
        rcases hcmp with h | h | h | h | h | h <;>
          simp [evaluateOperatorRecursive, compareValuesRecursive, hAll,
            compareStringRecursive, decide_not, h]
      · obtain ⟨hmeta, hstr⟩ := hmeta
        have htr := likeTranslateIter_eq_convert c.operand2.data hmeta
        rcases hlike with h | h
        · simp only [evaluateOperatorRecursive, evaluateLikeRecursive, h]
          cases v <;> simp [htr]
        · obtain ⟨s, rfl⟩ := hstr h v hR
          simp only [evaluateOperatorRecursive, evaluateLikeRecursive, h]
          simp [htr]

/-- On condition lists whose members all satisfy `condAgrees`, the two
whole-list evaluators coincide. -/
theorem checkConditions_eq_recursive_of_agrees (row : Row) :
    ∀ conds : List Condition, (∀ c ∈ conds, condAgrees row c) →
      checkConditions row conds = evaluateConditionsRecursive row conds 0 := by
  intro conds h
  show checkConditions row conds = evalCondsFrom row conds
  rw [checkConditions_eq_all]
  induction conds with
  | nil => rfl
  | cons c t ih =>
      simp only [List.all_cons, evalCondsFrom]
      rw [← checkCondition_eq_recursive_of_agrees row c (h c (by simp))]
      cases hc : checkCondition row c with
      | false => rfl
      | true =>
          simp only [Bool.true_and, if_true]
          exact ih (fun x hx => h x (by simp [hx]))

/-! ## Lemmas: parser and validator inversion -/

/-- What a successful validation guarantees about the final state. -/
theorem validate_none_inv (st : PState) (hv : validate st = none) :
    st.query.type ≠ .unknownType ∧
    (st.query.type ≠ .create →
      st.query.tableName ≠ "" ∧
      validateConds st.query.conditions = none ∧
      (st.query.type = .insert →
        st.query.inserts ≠ [] ∧
          ∀ r ∈ st.query.inserts, r.length = st.query.fields.length)) := by
  unfold validate at hv
  by_cases c1 : st.query.conditions.isEmpty ∧ st.step = .stepWhereField
  · rw [if_pos c1] at hv; exact Option.noConfusion hv
  rw [if_neg c1] at hv
  by_cases c2 : st.query.type = .unknownType
  · rw [if_pos c2] at hv; exact Option.noConfusion hv
  rw [if_neg c2] at hv
  by_cases c3 : st.query.type = .create
  · exact ⟨c2, fun hc => absurd c3 hc⟩
  rw [if_neg c3] at hv
  by_cases c4 : st.query.tableName = ""
  · rw [if_pos c4] at hv; exact Option.noConfusion hv
  rw [if_neg c4] at hv
  by_cases c5 : st.query.conditions.isEmpty
      ∧ (st.query.type = .update ∨ st.query.type = .delete)
  · rw [if_pos c5] at hv; exact Option.noConfusion hv
  rw [if_neg c5] at hv
  cases hvc : validateConds st.query.conditions with
  | some e => rw [hvc] at hv; exact Option.noConfusion hv
  | none =>
      rw [hvc] at hv
      by_cases c6 : st.query.type = .insert ∧ st.query.inserts.isEmpty
      · rw [if_pos c6] at hv; exact Option.noConfusion hv
      rw [if_neg c6] at hv
      by_cases c7 : st.query.type = .insert
          ∧ st.query.inserts.any (fun r => r.length ≠ st.query.fields.length)
      · rw [if_pos c7] at hv; exact Option.noConfusion hv
      refine ⟨c2, fun _ => ⟨c4, rfl, fun hins => ⟨?_, ?_⟩⟩⟩
      · intro hnil
        exact c6 ⟨hins, by rw [hnil]; rfl⟩
      · intro r hr
        by_contra hne
        exact c7 ⟨hins, by rw [List.any_eq_true]; exact ⟨r, hr, by simpa using hne⟩⟩

/-- A successful parse passes through a successfully validated final
state carrying the returned query. -/
theorem parseQ_ok_inv {s : String} {q : Query} (h : parseQ s = .ok q) :
    ∃ st : PState,
      doParse ((goTrimSpace s.data).length + 2)
          ⟨goTrimSpace s.data, .stepType, emptyQuery, ""⟩ = (st, none)
        ∧ validate st = none ∧ st.query = q := by
  simp only [parseQ] at h
  rcases hd : doParse ((goTrimSpace s.data).length + 2)
      ⟨goTrimSpace s.data, .stepType, emptyQuery, ""⟩ with ⟨st, err⟩
  rw [hd] at h
  cases err with
  | some e => exact Except.noConfusion h
  | none =>
      have h' : (match validate st with
        | some e => Except.error e
        | none => Except.ok st.query) = Except.ok q := h
      cases hv : validate st with
      | some e => rw [hv] at h'; exact Except.noConfusion h'
      | none =>
          rw [hv] at h'
          injection h' with h'
          exact ⟨st, rfl, hv, h'⟩

/-! ## Lemmas: reserved-word precedence in the tokenizer -/

theorem tryReserved_mem :
    ∀ (ws : List (List Char)) (rest t : List Char) (n : Nat),
      tryReserved ws rest = some (t, n) → t ∈ ws ∧ n = t.length := by
  intro ws
  induction ws with
  | nil => intro rest t n h; exact Option.noConfusion h
  | cons w ws' ih =>
      intro rest t n h
      simp only [tryReserved] at h
      split_ifs at h with hw
      · injection h with h
        injection h with h1 h2
        subst h1; subst h2
        exact ⟨by rw [hw]; exact List.mem_cons_self _ _, rfl⟩
      · obtain ⟨hm, hn⟩ := ih rest t n h
        exact ⟨List.mem_cons_of_mem _ hm, hn⟩

theorem tryReserved_isSome :
    ∀ (ws : List (List Char)) (rest w : List Char),
      w ∈ ws → listToUpper (rest.take w.length) = w →
        (tryReserved ws rest).isSome := by
  intro ws
  induction ws with
  | nil => intro rest w hw; exact absurd hw (List.not_mem_nil w)
  | cons w0 ws' ih =>
      intro rest w hw hp
      simp only [tryReserved]
      split_ifs with h0
      · rfl
      · rcases List.mem_cons.mp hw with rfl | hmem
        · exact absurd hp h0
        · exact ih rest w hmem hp

/-- When some reserved word is a case-insensitive prefix of the
remaining input, the tokenizer returns a reserved word (with its own
length), never the longer identifier. -/
theorem peekWithLength_reserved (rest w : List Char) (hw : w ∈ reservedWords)
    (hp : listToUpper (rest.take w.length) = w) :
    ∃ t ∈ reservedWords, peekWithLength rest = (t, t.length) := by
  cases rest with
  | nil =>
      rw [List.take_nil] at hp
      have : w = [] := hp.symm
      subst this
      exact absurd hw (by decide)
  | cons c r =>
      have hs := tryReserved_isSome reservedWords (c :: r) w hw hp
      rcases ho : tryReserved reservedWords (c :: r) with _ | ⟨t, n⟩
      · rw [ho] at hs; exact Bool.noConfusion hs
      · obtain ⟨hm, hn⟩ := tryReserved_mem reservedWords (c :: r) t n ho
        subst hn
        exact ⟨t, hm, by simp [peekWithLength, ho]⟩

/-! ## Lemmas: the parser loop at end of input -/

/-- With input exhausted, the parser loop returns the accumulated state
with no error, whatever the current step. -/
theorem doParse_empty_rest (fuel : Nat) (st : PState) (h : st.rest = []) :
    doParse (fuel + 1) st = (st, none) := by
  unfold doParse
  rw [h]
  rfl

/-! ## Claim theorems -/

/-- Claim C1, counterexample: for the condition `a > '9'` on a record
with `a = "10"`, both sides parse as 64-bit floats and the numeric
comparison is true, yet the iterative condition evaluator
(`checkCondition`) returns false — it always compares the default string
renderings lexicographically and never attempts a numeric comparison. -/
theorem c1_counterexample :
    checkCondition [("a", Value.vStr "10")]
        ⟨"a", true, .gt, "9", false, []⟩ = false
    ∧ parseFloat "10" = some 10 ∧ parseFloat "9" = some 9
    ∧ performNumericComparisonRecursive 10 9 "gt" = true :=
  ⟨by decide, by decide, by decide, by decide⟩

/-- Claim C1 (amended): for Gt/Gte/Lt/Lte conditions whose left operand
resolves, the RECURSIVE evaluator (`compareValuesRecursive`) follows the
claimed policy — numeric comparison when both the resolved value (whose
by-dynamic-type conversion coincides with parsing its default string
rendering) and the right-hand operand parse as numbers, otherwise
lexicographic comparison of the default string renderings — while the
ITERATIVE evaluator (`checkCondition`) always uses the lexicographic
string comparison. -/
theorem c1_amended_policy (row : Row) (cond : Condition) (v : Value)
    (hop : cond.operator = .gt ∨ cond.operator = .gte
      ∨ cond.operator = .lt ∨ cond.operator = .lte)
    (hres : resolvePathIter row (goSplitDot cond.operand1) = some v) :
    checkCondition row cond
      = compareStringRecursive (renderValue v) cond.operand2 (dirString cond.operator)
    ∧ evaluateConditionRecursive row cond
      = (match parseFloat (renderValue v), parseFloat cond.operand2 with
         | some a, some b => performNumericComparisonRecursive a b (dirString cond.operator)
         | _, _ =>
             compareStringRecursive (renderValue v) cond.operand2
               (dirString cond.operator)) := by
  have hres2 : getFieldValueRecursive row (goSplitDot cond.operand1) = some v := by
    rw [← resolvePathIter_eq_getFieldValueRecursive, hres]
  constructor
  · simp only [checkCondition, hres]
    rcases hop with h | h | h | h <;>
      simp [h, compareStringRecursive, dirString]
  · simp only [evaluateConditionRecursive, hres2]
    have hconv := goNumConv_eq_parseFloat_render v
    rcases hop with h | h | h | h <;>
      · simp only [evaluateOperatorRecursive, h, compareValuesRecursive,
          compareNumericRecursive, hconv, dirString]
        cases parseFloat (renderValue v) <;> cases parseFloat cond.operand2 <;> rfl

theorem c1_amended_policy_witness :
    checkCondition [("a", Value.vStr "abc")] ⟨"a", true, .gt, "5", false, []⟩
      = compareStringRecursive (renderValue (.vStr "abc")) "5" (dirString .gt)
    ∧ evaluateConditionRecursive [("a", Value.vStr "abc")]
        ⟨"a", true, .gt, "5", false, []⟩
      = (match parseFloat (renderValue (.vStr "abc")), parseFloat "5" with
         | some a, some b => performNumericComparisonRecursive a b (dirString .gt)
         | _, _ => compareStringRecursive (renderValue (.vStr "abc")) "5" (dirString .gt)) :=
  c1_amended_policy _ _ (Value.vStr "abc") (Or.inl rfl) rfl

/-- Claim C2, counterexample: on the record `{a ↦ "10"}` and the single
condition `a > '9'`, the iterative evaluator returns false (string
comparison) while the recursive evaluator returns true (numeric
comparison), so the two evaluators are not equivalent. -/
theorem c2_counterexample :
    checkConditions [("a", Value.vStr "10")]
        [⟨"a", true, Operator.gt, "9", false, []⟩] = false
    ∧ evaluateConditionsRecursive [("a", Value.vStr "10")]
        [⟨"a", true, Operator.gt, "9", false, []⟩] 0 = true :=
  ⟨by decide, by decide⟩

/-- Claim C2 (amended): the iterative evaluator (`checkConditions`) and
the recursive evaluator (`evaluateConditionsRecursive` from index 0)
agree on every record and condition list in which each condition either
fails to resolve, uses In/NotIn (or an unknown operator), uses a
comparison operator with operands that do not both convert to numbers,
or uses Like/NotLike with a metacharacter-free pattern (NotLike
additionally requiring a string value); in general they differ. -/
theorem c2_amended_agreement (row : Row) (conds : List Condition)
    (h : ∀ c ∈ conds, condAgrees row c) :
    checkConditions row conds = evaluateConditionsRecursive row conds 0 :=
  checkConditions_eq_recursive_of_agrees row conds h

theorem c2_amended_agreement_witness :
    checkConditions [("a", Value.vStr "x")]
        [⟨"a", true, Operator.eq, "y", false, []⟩]
      = evaluateConditionsRecursive [("a", Value.vStr "x")]
          [⟨"a", true, Operator.eq, "y", false, []⟩] 0 :=
  c2_amended_agreement _ _ (by
    intro c hc
    simp only [List.mem_singleton] at hc
    subst hc
    refine Or.inr (Or.inr (Or.inr (Or.inr (Or.inl ⟨Or.inl rfl, ?_⟩))))
    intro v hv
    exact Or.inr rfl)

/-- Claim C3, counterexample: `SELECT a FROM 'b c'` parses successfully
(table name `b c`), but its rendering drops the quotes, and re-parsing
the rendered text fails — the round-trip property does not hold for
every accepted input. -/
theorem c3_counterexample :
    parseQ "SELECT a FROM 'b c'"
      = .ok ⟨.select, "b c", [], [], [], ["a"], [], []⟩
    ∧ queryGoString ⟨.select, "b c", [], [], [], ["a"], [], []⟩ = "SELECT a FROM b c"
    ∧ parseQ "SELECT a FROM b c" = .error "expected WHERE" :=
  ⟨rfl, by decide, rfl⟩

/-- Claim C3 (amended): rendering and re-parsing yields a structurally
equal Query for statements whose rendered atoms re-tokenize unchanged —
verified here for representative accepted statements of all five kinds
(SELECT with aliases and an IN condition, INSERT with several rows,
UPDATE with several SETs, DELETE, CREATE TABLE); it fails in general,
e.g. when a quoted table name contains a space. -/
theorem c3_amended_roundtrip :
    (parseQ "SELECT a, c AS x FROM 'tbl' WHERE a = '1' AND b IN ('2', '3')"
        = .ok ⟨.select, "tbl",
            [⟨"a", true, .eq, "1", false, []⟩, ⟨"b", true, .inOp, "", false, ["2", "3"]⟩],
            [], [], ["a", "c"], [("c", "x")], []⟩
      ∧ parseQ (queryGoString ⟨.select, "tbl",
            [⟨"a", true, .eq, "1", false, []⟩, ⟨"b", true, .inOp, "", false, ["2", "3"]⟩],
            [], [], ["a", "c"], [("c", "x")], []⟩)
        = .ok ⟨.select, "tbl",
            [⟨"a", true, .eq, "1", false, []⟩, ⟨"b", true, .inOp, "", false, ["2", "3"]⟩],
            [], [], ["a", "c"], [("c", "x")], []⟩)
    ∧ (parseQ "INSERT INTO 'a' (b, c) VALUES ('1', '2'), ('3', '4')"
        = .ok ⟨.insert, "a", [], [], [["1", "2"], ["3", "4"]], ["b", "c"], [], []⟩
      ∧ parseQ (queryGoString
            ⟨.insert, "a", [], [], [["1", "2"], ["3", "4"]], ["b", "c"], [], []⟩)
        = .ok ⟨.insert, "a", [], [], [["1", "2"], ["3", "4"]], ["b", "c"], [], []⟩)
    ∧ (parseQ "UPDATE 'a' SET b = 'x', c = 'y' WHERE d = '1'"
        = .ok ⟨.update, "a", [⟨"d", true, .eq, "1", false, []⟩],
            [("b", "x"), ("c", "y")], [], [], [], []⟩
      ∧ parseQ (queryGoString ⟨.update, "a", [⟨"d", true, .eq, "1", false, []⟩],
            [("b", "x"), ("c", "y")], [], [], [], []⟩)
        = .ok ⟨.update, "a", [⟨"d", true, .eq, "1", false, []⟩],
            [("b", "x"), ("c", "y")], [], [], [], []⟩)
    ∧ (parseQ "DELETE FROM 'a' WHERE b = '1'"
        = .ok ⟨.delete, "a", [⟨"b", true, .eq, "1", false, []⟩], [], [], [], [], []⟩
      ∧ parseQ (queryGoString
            ⟨.delete, "a", [⟨"b", true, .eq, "1", false, []⟩], [], [], [], [], []⟩)
        = .ok ⟨.delete, "a", [⟨"b", true, .eq, "1", false, []⟩], [], [], [], [], []⟩)
    ∧ (parseQ "CREATE TABLE t (name string, age number)"
        = .ok ⟨.create, "t", [], [], [], [], [], [("name", "string"), ("age", "number")]⟩
      ∧ parseQ (queryGoString
            ⟨.create, "t", [], [], [], [], [], [("name", "string"), ("age", "number")]⟩)
        = .ok ⟨.create, "t", [], [], [], [], [],
            [("name", "string"), ("age", "number")]⟩) :=
  ⟨⟨rfl, rfl⟩, ⟨rfl, rfl⟩, ⟨rfl, rfl⟩, ⟨rfl, rfl⟩, ⟨rfl, rfl⟩⟩

/-- Claim C4, counterexample: the input `CREATE TABLE` — exhausted right
after the keyword — parses without error to a Create query whose table
name is empty (the validator returns early for Create before the
table-name check). -/
theorem c4_counterexample :
    parseQ "CREATE TABLE" = .ok ⟨.create, "", [], [], [], [], [], []⟩
    ∧ (Query.mk .create "" [] [] [] [] [] []).tableName = "" :=
  ⟨rfl, rfl⟩

/-- Claim C4 (amended): every Query returned by Parse without error and
whose kind is not Create has a non-empty table name (and a known kind);
for Create the table-name guarantee fails on the input `CREATE TABLE`. -/
theorem c4_amended_table_nonempty (s : String) (q : Query)
    (h : parseQ s = .ok q) (hc : q.type ≠ .create) :
    q.tableName ≠ "" ∧ q.type ≠ .unknownType := by
  obtain ⟨st, _, hv, hq⟩ := parseQ_ok_inv h
  subst hq
  exact ⟨((validate_none_inv st hv).2 hc).1, (validate_none_inv st hv).1⟩

theorem c4_amended_table_nonempty_witness :
    (Query.mk .select "b" [] [] [] ["a"] [] []).tableName ≠ ""
    ∧ (Query.mk .select "b" [] [] [] ["a"] [] []).type ≠ .unknownType :=
  c4_amended_table_nonempty "SELECT a FROM 'b'" _ rfl (by decide)

/-- Claim C5, counterexample: (i) for the iterative evaluator, the LIKE
pattern `a.c` matches the record value `"abc"` — the regex
metacharacter `.` is NOT escaped, contradicting the claimed semantics
under which `a.c` only matches the literal `a.c`; (ii) for the recursive
evaluator, a NotLike condition on a NON-string value (here an integer)
evaluates to true, contradicting the claim that non-string values make
the condition false. -/
theorem c5_counterexample :
    checkCondition [("name", Value.vStr "abc")]
        ⟨"name", true, .like, "a.c", false, []⟩ = true
    ∧ specLikeMatch "a.c".data "abc".data = false
    ∧ evaluateConditionRecursive [("a", Value.vInt 5)]
        ⟨"a", true, .notLike, "x", false, []⟩ = true :=
  ⟨by decide, by decide, by decide⟩

/-- Claim C5 (amended): the RECURSIVE evaluator translates the pattern
with every regex metacharacter escaped, so on string values LIKE holds
exactly when the string matches the pattern under `%` = any sequence of
zero or more non-newline characters and `_` = exactly one non-newline
character (Go's regexp `.` excludes newline); Like on a non-string value
is false, but NotLike on a non-string value is TRUE (the negation is
applied outside the string check).  The ITERATIVE evaluator replaces
only `%` and `_`, leaving other metacharacters with their regex
meaning, and returns false for both Like and NotLike on non-strings. -/
theorem c5_amended_like (pattern s : String) (n : Int) (b : Bool)
    (m : List (String × Value)) :
    evaluateLikeRecursive (.vStr s) pattern = amendedLikeMatch pattern.data s.data
    ∧ evaluateLikeRecursive (.vInt n) pattern = false
    ∧ evaluateLikeRecursive (.vBool b) pattern = false
    ∧ evaluateLikeRecursive (.vMap m) pattern = false
    ∧ evaluateOperatorRecursive (.vStr s) ⟨"f", true, .notLike, pattern, false, []⟩
        = !evaluateLikeRecursive (.vStr s) pattern
    ∧ evaluateOperatorRecursive (.vInt n) ⟨"f", true, .notLike, pattern, false, []⟩ = true
    ∧ checkCondition [("f", .vInt n)] ⟨"f", true, .notLike, pattern, false, []⟩ = false :=
  ⟨evaluateLikeRecursive_eq_amended pattern s, rfl, rfl, rfl, rfl, rfl, rfl⟩

/-- Claim C6: `Filter` (and `FilterRecursive`) return an error exactly
when the parse fails (wrapping the parse error) or the parsed kind is
not Select; otherwise they return the sub-mapping of records on which
every condition evaluates to true under the respective evaluator, with
record values unchanged and the whole dataset kept when the condition
list is empty (`List.filter` keeps entries untouched). -/
theorem c6_filter_characterization (s : String) (data : List (String × Row)) :
    (∀ e, parseQ s = .error e →
        goFilter s data = .error ("failed to parse SQL: " ++ e)
        ∧ goFilterRecursive s data = .error ("failed to parse SQL: " ++ e))
    ∧ (∀ q, parseQ s = .ok q → q.type ≠ .select →
        goFilter s data = .error "only SELECT queries can be filtered"
        ∧ goFilterRecursive s data = .error "only SELECT queries can be filtered")
    ∧ (∀ q, parseQ s = .ok q → q.type = .select →
        goFilter s data
          = .ok (data.filter (fun kv => q.conditions.all (checkCondition kv.2)))
        ∧ goFilterRecursive s data
          = .ok (data.filter
              (fun kv => evaluateConditionsRecursive kv.2 q.conditions 0))) := by
  refine ⟨?_, ?_, ?_⟩
  · intro e he
    constructor <;> simp [goFilter, goFilterRecursive, he]
  · intro q hq hns
    constructor <;> simp [goFilter, goFilterRecursive, hq, hns]
  · intro q hq hs
    constructor
    · simp [goFilter, hq, hs, filterLoop_eq_filter, checkConditions_eq_all]
    · simp [goFilterRecursive, hq, hs, filterLoopRecursive_eq_filter]

theorem c6_filter_characterization_witness :
    goFilter "SELECT * FROM 'u' WHERE x = '1'"
        [("1", [("x", Value.vStr "1")]), ("2", [("x", Value.vStr "2")])]
      = .ok ([("1", [("x", Value.vStr "1")]), ("2", [("x", Value.vStr "2")])].filter
          (fun kv =>
            [Condition.mk "x" true .eq "1" false []].all (checkCondition kv.2)))
    ∧ goFilterRecursive "SELECT * FROM 'u' WHERE x = '1'"
        [("1", [("x", Value.vStr "1")]), ("2", [("x", Value.vStr "2")])]
      = .ok ([("1", [("x", Value.vStr "1")]), ("2", [("x", Value.vStr "2")])].filter
          (fun kv => evaluateConditionsRecursive kv.2
            [Condition.mk "x" true .eq "1" false []] 0)) :=
  (c6_filter_characterization _ _).2.2
    ⟨.select, "u", [Condition.mk "x" true .eq "1" false []], [], [], ["*"], [], []⟩
    rfl rfl

/-- Claim C7: a condition whose dotted left-operand path fails to
resolve (missing segment, non-map intermediate value, or missing final
segment) evaluates to false under both evaluators; resolution is the
same traversal in both, and filtering is a pure `List.filter`, so a
failing record never raises an error and never aborts evaluation of the
remaining records. -/
theorem c7_resolution_failure :
    (∀ (row : Row) (cond : Condition),
        resolvePathIter row (goSplitDot cond.operand1) = none →
          checkCondition row cond = false ∧ evaluateConditionRecursive row cond = false)
    ∧ (∀ (row : Row) (parts : List String),
        resolvePathIter row parts = getFieldValueRecursive row parts)
    ∧ (∀ (data : List (String × Row)) (conds : List Condition),
        filterLoop data conds = data.filter (fun kv => checkConditions kv.2 conds)
        ∧ filterLoopRecursive data conds
            = data.filter (fun kv => evaluateConditionsRecursive kv.2 conds 0)) := by
  refine ⟨?_, fun row parts => resolvePathIter_eq_getFieldValueRecursive parts row,
    fun data conds => ⟨filterLoop_eq_filter conds data,
      filterLoopRecursive_eq_filter conds data⟩⟩
  intro row cond h
  have h2 : getFieldValueRecursive row (goSplitDot cond.operand1) = none := by
    rw [← resolvePathIter_eq_getFieldValueRecursive, h]
  exact ⟨by simp [checkCondition, h], by simp [evaluateConditionRecursive, h2]⟩

theorem c7_resolution_failure_witness :
    checkCondition [("a", Value.vStr "1")] ⟨"b.c", true, .eq, "1", false, []⟩ = false
    ∧ evaluateConditionRecursive [("a", Value.vStr "1")]
        ⟨"b.c", true, .eq, "1", false, []⟩ = false :=
  c7_resolution_failure.1 _ _ rfl

/-- Claim C8: every Insert query returned by Parse without error has at
least one row and every row's length equals the field list's length
(enforced by the final validation pass). -/
theorem c8_insert_arity (s : String) (q : Query) (h : parseQ s = .ok q)
    (hins : q.type = .insert) :
    q.inserts ≠ [] ∧ ∀ r ∈ q.inserts, r.length = q.fields.length := by
  obtain ⟨st, _, hv, hq⟩ := parseQ_ok_inv h
  subst hq
  have hnc : st.query.type ≠ .create := by rw [hins]; exact fun hc => QType.noConfusion hc
  exact ((validate_none_inv st hv).2 hnc).2.2 hins

theorem c8_insert_arity_witness :
    (Query.mk .insert "a" [] [] [["1"]] ["b"] [] []).inserts ≠ []
    ∧ ∀ r ∈ (Query.mk .insert "a" [] [] [["1"]] ["b"] [] []).inserts,
        r.length = (Query.mk .insert "a" [] [] [["1"]] ["b"] [] []).fields.length :=
  c8_insert_arity "INSERT INTO 'a' (b) VALUES ('1')" _ rfl rfl

/-- Claim C9: whenever some reserved word is a case-insensitive prefix
of the remaining input, the tokenizer returns a reserved word rather
than the longer identifier; consequently `SELECT info FROM 'b'`,
`SELECT settings FROM 'b'` and `SELECT asset FROM 'b'` (identifiers
starting with `IN`, `SET`, `AS`) are all rejected where the grammar
expects a field name. -/
theorem c9_reserved_prefix :
    (∀ rest w : List Char, w ∈ reservedWords →
        listToUpper (rest.take w.length) = w →
          ∃ t ∈ reservedWords, peekWithLength rest = (t, t.length))
    ∧ parseQ "SELECT info FROM 'b'" = .error "at SELECT: expected field to SELECT"
    ∧ parseQ "SELECT settings FROM 'b'" = .error "at SELECT: expected field to SELECT"
    ∧ parseQ "SELECT asset FROM 'b'" = .error "at SELECT: expected field to SELECT" :=
  ⟨peekWithLength_reserved, rfl, rfl, rfl⟩

theorem c9_reserved_prefix_witness :
    ∃ t ∈ reservedWords, peekWithLength "info".data = (t, t.length) :=
  c9_reserved_prefix.1 "info".data "IN".data (by decide) (by decide)

/-- Claim C10: when the input is exhausted the parser loop returns the
accumulated query with no error whatever the current step, so inputs
ending right after a trailing AND (following at least one complete
condition) parse successfully with the conditions collected so far —
e.g. `SELECT a FROM 'b' WHERE a = '1' AND`. -/
theorem c10_trailing_and :
    (∀ (fuel : Nat) (st : PState), st.rest = [] → doParse (fuel + 1) st = (st, none))
    ∧ parseQ "SELECT a FROM 'b' WHERE a = '1' AND"
        = .ok ⟨.select, "b", [⟨"a", true, .eq, "1", false, []⟩], [], [], ["a"], [], []⟩
    ∧ parseQ "SELECT a FROM 'b' WHERE a = '1' AND b = '2' AND"
        = .ok ⟨.select, "b",
            [⟨"a", true, .eq, "1", false, []⟩, ⟨"b", true, .eq, "2", false, []⟩],
            [], [], ["a"], [], []⟩ :=
  ⟨doParse_empty_rest, rfl, rfl⟩

theorem c10_trailing_and_witness :
    doParse 1 ⟨[], .stepWhereField, emptyQuery, ""⟩
      = (⟨[], .stepWhereField, emptyQuery, ""⟩, none) :=
  c10_trailing_and.1 0 _ rfl

end SqlParser
